import Mathlib

set_option linter.unusedVariables false

/-!
Shallow embedding of the stepper motion core of the `claw` firmware
(`src/stepper.h`, `src/stepper.c`, `src/command_processor.c`, `src/sys_timer.h`).

C `int` values are modelled as `Int`.  GPIO writes that the claims observe
(step pulse, direction, fault LED) are recorded as fields of explicit state
records; GPIO writes no claim observes (enable pin, enable LED) are dropped.
The C functions mutate a `stepper_state_t` through a pointer and return a
`bool`; here they take the state and return either an updated state, an
`Option` state (`none` = the C function returned `false` leaving the entity
untouched), or a `state × Bool` pair.  NULL-pointer arguments are outside the
embedding: every claim is about a non-NULL entity.

Integer division: the only divisions in the modelled code are
`step_period / 2`, `step_period_us / TIMER_INTERVAL_US` and
`STEPPER_STEPS_PER_REV / 4`, all with nonnegative dividends in every state
the theorems consider, where Lean's Euclidean `/` on `Int` agrees with C's
truncating division.
-/

/-- Constant from `src/sys_timer.h`: timer interval in microseconds. -/
def TIMER_INTERVAL_US : Int := 10

/-- Constant from `src/stepper.h`. -/
def MIN_STEPPER_PERIOD : Int := 4

/-- Constant from `src/stepper.h`. -/
def STEPPER_STEPS_PER_REV : Int := 3200

/-- Constant from `src/stepper.h`. -/
def STEPPER_MAX_REVOLUTIONS : Int := 12

/-- Constant from `src/stepper.h`: `STEPPER_STEPS_PER_REV * STEPPER_MAX_REVOLUTIONS = 38400`. -/
def MAX_STEPPER_POSITION : Int := STEPPER_STEPS_PER_REV * STEPPER_MAX_REVOLUTIONS

/-- Constant from `src/stepper.h`. -/
def MIN_STEPPER_POSITION : Int := 0

/-- Constant from `src/stepper.h`: debounce hold loaded on estop activation. -/
def STEPPER_ESTOP_DEACTIVATE_DELAY_MS : Int := 100

/-- Constant from `src/stepper.h`: `STEPPER_STEPS_PER_REV / 4 = 800`. -/
def STEPPER_BUMP_STEPS : Int := STEPPER_STEPS_PER_REV / 4

/-- Constant from `src/stepper.h`. -/
def STEPPER_DIRECTION_FORWARD : Int := 1

/-- Constant from `src/stepper.h`. -/
def STEPPER_DIRECTION_BACKWARD : Int := 0

/-- The `stepper_state_t` struct of `src/stepper.h`. -/
structure StepperState where
  current_position : Int
  target_position : Int
  step_period : Int
  moving : Bool
  enabled : Bool
deriving DecidableEq

/-- Embeds `stepper_enable` (`src/stepper.c:101`): unconditionally records the
enable flag (and drives the enable GPIO, not modelled) and returns `true` for
any non-NULL entity.  The pair is (updated entity, C return value). -/
def stepper_enable (stepper : StepperState) (enable : Bool) : StepperState × Bool :=
  ({ stepper with enabled := enable }, true)

/-- Embeds `stepper_init` (`src/stepper.c:18`): rejects an out-of-range
initial position and any `step_period ≤ 1`; otherwise resets every field and
calls `stepper_enable(stepper, false)`.  `none` models returning `false` with
the entity untouched. -/
def stepper_init (initial_position : Int) (step_period : Int) : Option StepperState :=
  if initial_position < MIN_STEPPER_POSITION ∨ initial_position > MAX_STEPPER_POSITION then
    none
  else if step_period ≤ 1 then
    none
  else
    some (stepper_enable
      { current_position := initial_position
        target_position := initial_position
        step_period := step_period
        moving := false
        enabled := false } false).1

/-- Embeds `stepper_set_target_position` (`src/stepper.c:56`). -/
def stepper_set_target_position (stepper : StepperState) (target_position : Int) :
    Option StepperState :=
  if target_position < MIN_STEPPER_POSITION ∨ target_position > MAX_STEPPER_POSITION then
    none
  else
    some { stepper with target_position := target_position, moving := true }

/-- Embeds `stepper_set_step_period` (`src/stepper.c:73`). -/
def stepper_set_step_period (stepper : StepperState) (step_period_us : Int) :
    Option StepperState :=
  if step_period_us < MIN_STEPPER_PERIOD * TIMER_INTERVAL_US then
    none
  else
    some { stepper with step_period := step_period_us / TIMER_INTERVAL_US }

/-- Embeds `stepper_stop` (`src/stepper.c:89`). -/
def stepper_stop (stepper : StepperState) : StepperState :=
  { stepper with target_position := stepper.current_position, moving := false }

/-- Result of one `process_stepper_estop` poll: the entity, the static
debounce counter `extop_active_count`, the level written to the fault LED
(`true` = active), and the C return value. -/
structure EstopResult where
  stepper : StepperState
  count : Int
  estop_led : Bool
  ret : Bool
deriving DecidableEq

/-- Embeds `process_stepper_estop` (`src/stepper.c:141`).  The static
`extop_active_count` is passed and returned explicitly; `estop_input_active`
is the value of the `gpio_get(STEPPER_ESTOP_PIN) == STEPPER_ESTOP_ACTIVE_LEVEL`
test on the safety input. -/
def process_stepper_estop (stepper : StepperState) (extop_active_count : Int)
    (estop_input_active : Bool) : EstopResult :=
  if estop_input_active then
    { stepper :=
        { (stepper_enable stepper false).1 with
          moving := false
          target_position := stepper.current_position }
      count := STEPPER_ESTOP_DEACTIVATE_DELAY_MS
      estop_led := true
      ret := true }
  else if extop_active_count > 0 then
    { stepper := stepper
      count := extop_active_count - 1
      estop_led := true
      ret := true }
  else
    { stepper := stepper
      count := extop_active_count
      estop_led := false
      ret := false }

/-- Iterates `process_stepper_estop` over a list of successive safety-input
readings, threading the entity and the static debounce counter. -/
def runEstop : List Bool → StepperState → Int → StepperState × Int
  | [], stepper, count => (stepper, count)
  | input :: rest, stepper, count =>
    let r := process_stepper_estop stepper count input
    runEstop rest r.stepper r.count

/-- State operated on by `process_stepper_movement` (`src/stepper.c:201`):
the entity, the static `step_timer` phase counter, and the held levels of the
step and direction GPIO outputs. -/
structure GenState where
  stepper : StepperState
  step_timer : Int
  step_pin : Bool
  dir_pin : Int
deriving DecidableEq

/-- The direction computation of `src/stepper.c:227`. -/
def stepperDirection (stepper : StepperState) : Int :=
  if stepper.target_position > stepper.current_position then
    STEPPER_DIRECTION_FORWARD
  else
    STEPPER_DIRECTION_BACKWARD

/-- Embeds one call of `process_stepper_movement` (`src/stepper.c:201`).
Returns the new generator state and the C return value (`stepper->moving`
after the call). -/
def process_stepper_movement (g : GenState) : GenState × Bool :=
  let direction := stepperDirection g.stepper
  if g.stepper.moving then
    let t := g.step_timer + 1
    if t = g.stepper.step_period / 2 then
      ({ g with dir_pin := direction, step_timer := t, step_pin := true }, true)
    else if t ≥ g.stepper.step_period then
      let newpos :=
        if direction = STEPPER_DIRECTION_FORWARD then
          g.stepper.current_position + 1
        else
          g.stepper.current_position - 1
      if newpos = g.stepper.target_position then
        ({ stepper := { g.stepper with current_position := newpos, moving := false }
           step_timer := 0
           step_pin := false
           dir_pin := direction }, false)
      else
        ({ stepper := { g.stepper with current_position := newpos }
           step_timer := 0
           step_pin := false
           dir_pin := direction }, true)
    else
      ({ g with dir_pin := direction, step_timer := t }, true)
  else
    ({ g with dir_pin := direction, step_pin := false, step_timer := 0 }, false)

/-- One fine tick of the Step Generator (state part of
`process_stepper_movement`). -/
def movementStep (g : GenState) : GenState :=
  (process_stepper_movement g).1

/-- Runs `n` consecutive fine ticks of the Step Generator. -/
def runMovement : Nat → GenState → GenState
  | 0, g => g
  | n + 1, g => movementStep (runMovement n g)

/-- The position one completed pulse cycle advances to, in the direction
computed at `src/stepper.c:227`. -/
def nextPosition (stepper : StepperState) : Int :=
  if stepper.target_position > stepper.current_position then
    stepper.current_position + 1
  else
    stepper.current_position - 1

/-- Models C `atoi` digit accumulation: consumes leading decimal digits,
ignores the rest. -/
def atoiDigits : List Char → Int → Int
  | [], acc => acc
  | c :: rest, acc =>
    if c.isDigit then atoiDigits rest (acc * 10 + ((c.toNat : Int) - 48)) else acc

/-- Models C `atoi` (used by the command handlers, not repository code):
skips leading whitespace, accepts one optional sign, then accumulates leading
digits; a string with no leading number yields `0`. -/
def atoiChars : List Char → Int
  | [] => 0
  | c :: rest =>
    if c = ' ' ∨ c = '\t' ∨ c = '\n' ∨ c = '\r' ∨ c = '\x0b' ∨ c = '\x0c' then
      atoiChars rest
    else if c = '-' then
      -(atoiDigits rest 0)
    else if c = '+' then
      atoiDigits rest 0
    else
      atoiDigits (c :: rest) 0

/-- Models C `atoi` on a Lean string. -/
def atoi (s : String) : Int := atoiChars s.data

/-- Command keyword from `src/command_processor.c:31` (trailing space
included, exactly as in the source). -/
def MOVE_STEPPER_ABSOLUTE_COMMAND : String := "move_stepper_absolute "

/-- Command keyword from `src/command_processor.c:29`. -/
def SET_STEPPER_PERIOD_COMMAND : String := "set_stepper_period "

/-- Embeds `command_move_stepper_absolute` (`src/command_processor.c:340`):
`atoi(cmd + strlen(MOVE_STEPPER_ABSOLUTE_COMMAND))`, reject if disabled, then
`stepper_set_target_position` and a redundant `moving = true`.  The pair is
(entity after the call, C return value). -/
def command_move_stepper_absolute (stepper : StepperState) (cmd : String) :
    StepperState × Bool :=
  let target_position := atoi (cmd.drop MOVE_STEPPER_ABSOLUTE_COMMAND.length)
  if stepper.enabled = false then
    (stepper, false)
  else
    match stepper_set_target_position stepper target_position with
    | some s => ({ s with moving := true }, true)
    | none => (stepper, false)

/-- Embeds `command_set_stepper_period` (`src/command_processor.c:305`). -/
def command_set_stepper_period (stepper : StepperState) (cmd : String) :
    StepperState × Bool :=
  let new_step_period := atoi (cmd.drop SET_STEPPER_PERIOD_COMMAND.length)
  match stepper_set_step_period stepper new_step_period with
  | some s => (s, true)
  | none => (stepper, false)

/-- Embeds `command_move_stepper_bump_down` (`src/command_processor.c:427`). -/
def command_move_stepper_bump_down (stepper : StepperState) : StepperState × Bool :=
  if stepper.enabled = false then
    (stepper, false)
  else if stepper.current_position > STEPPER_BUMP_STEPS then
    ({ stepper with
       target_position := stepper.current_position - STEPPER_BUMP_STEPS
       moving := true }, true)
  else
    ({ stepper with
       current_position := STEPPER_BUMP_STEPS
       target_position := 0
       moving := true }, true)

/-- The values printed by `command_get_stepper_status`
(`src/command_processor.c:240`); the period is reported in microseconds
(`step_period * TIMER_INTERVAL_US`). -/
structure StepperStatus where
  current_position : Int
  target_position : Int
  step_period_us : Int
  moving : Bool
  enabled : Bool
deriving DecidableEq

/-- Embeds the read-only snapshot of `command_get_stepper_status`
(`src/command_processor.c:240`). -/
def command_get_stepper_status (stepper : StepperState) : StepperStatus :=
  { current_position := stepper.current_position
    target_position := stepper.target_position
    step_period_us := stepper.step_period * TIMER_INTERVAL_US
    moving := stepper.moving
    enabled := stepper.enabled }

/-- Validity of an entity state per the spec data model: both positions in
range, period at least the 2 fine ticks `stepper_init` enforces, and target
equal to current whenever not moving (which holds in every state reachable
through the public operations). -/
def validState (s : StepperState) : Prop :=
  MIN_STEPPER_POSITION ≤ s.current_position ∧
  s.current_position ≤ MAX_STEPPER_POSITION ∧
  MIN_STEPPER_POSITION ≤ s.target_position ∧
  s.target_position ≤ MAX_STEPPER_POSITION ∧
  2 ≤ s.step_period ∧
  (s.moving = false → s.current_position = s.target_position)

/-- Membership in the inclusive interval spanned by two endpoints in either
order. -/
def betweenIncl (a b x : Int) : Prop :=
  min a b ≤ x ∧ x ≤ max a b

/-- Invariant carried through the Step Generator ticks: the target is fixed
at `b`; while moving the position stays inside `[lo, hi]` and has not yet
reached `b`; once stopped the position is exactly `b`. -/
def movementInv (lo hi b : Int) (g : GenState) : Prop :=
  g.stepper.target_position = b ∧
  (g.stepper.moving = true →
    lo ≤ g.stepper.current_position ∧ g.stepper.current_position ≤ hi ∧
    g.stepper.current_position ≠ b) ∧
  (g.stepper.moving = false → g.stepper.current_position = b)

/-- Concrete entity produced by `stepper_init 0 4` (the spec scenario). -/
def initialEntity : StepperState :=
  { current_position := 0, target_position := 0, step_period := 4
    moving := false, enabled := false }

/-- The spec-scenario entity after `set_enabled(true)`. -/
def enabledEntity : StepperState :=
  { initialEntity with enabled := true }

/-- The spec-scenario entity after `set_target(0)` at position 0: the
"wake a stalled state" call, which sets `moving` with target = current. -/
def wokenEntity : StepperState :=
  { enabledEntity with moving := true }

/-- A concrete moving entity used as a witness input. -/
def sMov : StepperState :=
  { current_position := 7, target_position := 20, step_period := 4
    moving := true, enabled := true }

/-- A concrete disabled entity used as a witness input. -/
def sDis : StepperState :=
  { current_position := 7, target_position := 7, step_period := 4
    moving := false, enabled := false }

/-- A concrete enabled idle entity at position 5 used for the command-layer
evaluations. -/
def enabledAt5 : StepperState :=
  { current_position := 5, target_position := 5, step_period := 4
    moving := false, enabled := true }

/-- Generator state moving from 5 toward 7 with period 4, phase 0: witness
input for the pulse-cycle contract. -/
def gPulse : GenState :=
  { stepper :=
      { current_position := 5, target_position := 7, step_period := 4
        moving := true, enabled := true }
    step_timer := 0, step_pin := false, dir_pin := 0 }

/-- Generator state woken at its own position (current = target = 5): the
counterexample input for the pulse sign claim. -/
def gWake : GenState :=
  { stepper :=
      { current_position := 5, target_position := 5, step_period := 4
        moving := true, enabled := true }
    step_timer := 0, step_pin := false, dir_pin := 0 }

/-- Generator state moving from 0 toward 2 with period 4: witness input for
the termination claim. -/
def gTermW : GenState :=
  { stepper :=
      { current_position := 0, target_position := 2, step_period := 4
        moving := true, enabled := true }
    step_timer := 0, step_pin := false, dir_pin := 0 }

/-- A concrete enabled entity well above `STEPPER_BUMP_STEPS`. -/
def sBumpHigh : StepperState :=
  { current_position := 1000, target_position := 1000, step_period := 4
    moving := false, enabled := true }

/-- A concrete enabled entity at position 5, below `STEPPER_BUMP_STEPS`. -/
def sBumpLow : StepperState :=
  { current_position := 5, target_position := 5, step_period := 4
    moving := false, enabled := true }

/-- C1: one `process_stepper_estop` poll with the safety input active, on any
entity with `moving = true`, disables the motor, stops motion, freezes the
target at the current position, and reloads the debounce counter to
`STEPPER_ESTOP_DEACTIVATE_DELAY_MS`. -/
theorem estop_active_freezes_motion (s : StepperState) (c : Int) (h : s.moving = true) :
    (process_stepper_estop s c true).stepper =
      { s with enabled := false, moving := false, target_position := s.current_position } ∧
    (process_stepper_estop s c true).count = STEPPER_ESTOP_DEACTIVATE_DELAY_MS := by
  exact ⟨rfl, rfl⟩

/-- Witness for C1 at a concrete moving entity. -/
theorem estop_active_freezes_motion_witness :
    (process_stepper_estop sMov 0 true).stepper =
      { sMov with enabled := false, moving := false, target_position := sMov.current_position } ∧
    (process_stepper_estop sMov 0 true).count = STEPPER_ESTOP_DEACTIVATE_DELAY_MS :=
  estop_active_freezes_motion sMov 0 rfl

/-- C2: the interlock never restores permission: a single poll never turns
`enabled` from false to true for any reading and counter value, and over any
sequence of polls — including sequences whose debounce hold fully elapses —
a disabled entity stays disabled until a separate `stepper_enable` call. -/
theorem estop_never_reenables (s : StepperState) (c : Int) (h : s.enabled = false) :
    (∀ estop_input_active : Bool,
      (process_stepper_estop s c estop_input_active).stepper.enabled = false) ∧
    (∀ inputs : List Bool, (runEstop inputs s c).1.enabled = false) := by
  have step : ∀ (s' : StepperState) (c' : Int), s'.enabled = false →
      ∀ i : Bool, (process_stepper_estop s' c' i).stepper.enabled = false := by
    intro s' c' h' i
    unfold process_stepper_estop
    split_ifs <;> first | rfl | exact h'
  refine ⟨step s c h, ?_⟩
  intro inputs
  induction inputs generalizing s c with
  | nil => exact h
  | cons i rest ih =>
    exact ih (process_stepper_estop s c i).stepper (process_stepper_estop s c i).count
      (step s c h i)

/-- Witness for C2: a fault poll followed by 150 inactive polls (more than
the 100-poll hold) leaves a disabled entity disabled. -/
theorem estop_never_reenables_witness :
    (runEstop (true :: List.replicate 150 false) sDis 0).1.enabled = false :=
  (estop_never_reenables sDis 0 rfl).2 (true :: List.replicate 150 false)

/-- C6: `stepper_set_target_position` fails exactly on an out-of-range
argument, leaving the entity unchanged (modelled by `none`); in range it sets
the target to the argument and `moving = true`, with no exception when the
argument equals the current position. -/
theorem set_target_position_spec (s : StepperState) (p : Int) :
    (stepper_set_target_position s p = none ↔
      (p < MIN_STEPPER_POSITION ∨ p > MAX_STEPPER_POSITION)) ∧
    (MIN_STEPPER_POSITION ≤ p → p ≤ MAX_STEPPER_POSITION →
      stepper_set_target_position s p =
        some { s with target_position := p, moving := true }) := by
  unfold stepper_set_target_position
  constructor
  · split_ifs with h
    · simp [h]
    · simp [h]
  · intro h1 h2
    rw [if_neg]
    omega

/-- Witness for C6: rejection at -1 (the spec scenario) and acceptance at
100 on a concrete entity. -/
theorem set_target_position_spec_witness :
    stepper_set_target_position sDis (-1) = none ∧
    stepper_set_target_position sDis 100 =
      some { sDis with target_position := 100, moving := true } :=
  ⟨(set_target_position_spec sDis (-1)).1.mpr (Or.inl (by decide)),
   (set_target_position_spec sDis 100).2 (by decide) (by decide)⟩

/-- C7 counterexample: `stepper_init` accepts step period 2, which is below
`MIN_STEPPER_PERIOD = 4`, refuting the claim that initialization fails for
every period below `MIN_STEPPER_PERIOD`. -/
theorem stepper_init_accepts_short_period :
    (2 : Int) < MIN_STEPPER_PERIOD ∧
    stepper_init 0 2 =
      some { current_position := 0, target_position := 0, step_period := 2
             moving := false, enabled := false } := by decide

/-- C7 (amended): `stepper_init` fails exactly when the position is outside
the range or the period is at most 1 (the enforced minimum is 2 fine ticks,
not `MIN_STEPPER_PERIOD`); on success every field is as claimed and the
status snapshot reports exactly those values, the period in microseconds. -/
theorem stepper_init_spec (initial_position step_period : Int) :
    (stepper_init initial_position step_period = none ↔
      (initial_position < MIN_STEPPER_POSITION ∨ initial_position > MAX_STEPPER_POSITION ∨
       step_period ≤ 1)) ∧
    (MIN_STEPPER_POSITION ≤ initial_position → initial_position ≤ MAX_STEPPER_POSITION →
     1 < step_period →
      stepper_init initial_position step_period =
        some { current_position := initial_position, target_position := initial_position
               step_period := step_period, moving := false, enabled := false } ∧
      (stepper_init initial_position step_period).map command_get_stepper_status =
        some { current_position := initial_position, target_position := initial_position
               step_period_us := step_period * TIMER_INTERVAL_US
               moving := false, enabled := false }) := by
  unfold stepper_init
  constructor
  · split_ifs with h1 h2
    · simp
      omega
    · simp
      omega
    · simp
      omega
  · intro h1 h2 h3
    rw [if_neg (by omega), if_neg (by omega)]
    exact ⟨rfl, rfl⟩

/-- Witness for C7: success at the spec scenario `(0, 4)` and failure at
position -1. -/
theorem stepper_init_spec_witness :
    stepper_init 0 4 =
      some { current_position := 0, target_position := 0, step_period := 4
             moving := false, enabled := false } ∧
    stepper_init (-1) 4 = none :=
  ⟨((stepper_init_spec 0 4).2 (by decide) (by decide) (by decide)).1,
   (stepper_init_spec (-1) 4).1.mpr (Or.inl (by decide))⟩

/-- C9: `stepper_enable(stepper, true)` performs no fault check: in every
state it returns true and sets `enabled = true`, even immediately after an
interlock poll that observed the safety input active and left the debounce
counter at its full (positive) hold value. -/
theorem stepper_enable_ignores_fault (s : StepperState) (c : Int) :
    stepper_enable s true = ({ s with enabled := true }, true) ∧
    (stepper_enable (process_stepper_estop s c true).stepper true).1.enabled = true ∧
    (process_stepper_estop s c true).count > 0 := by
  refine ⟨rfl, rfl, ?_⟩
  show STEPPER_ESTOP_DEACTIVATE_DELAY_MS > 0
  decide

/-- C10: for every enabled entity the bump-down command succeeds: above
`STEPPER_BUMP_STEPS` it lowers the target by `STEPPER_BUMP_STEPS` leaving the
current position unchanged; at or below it, it silently rewrites the current
position to `STEPPER_BUMP_STEPS` and targets 0. -/
theorem bump_down_always_succeeds (s : StepperState) (h : s.enabled = true) :
    (command_move_stepper_bump_down s).2 = true ∧
    (s.current_position > STEPPER_BUMP_STEPS →
      command_move_stepper_bump_down s =
        ({ s with target_position := s.current_position - STEPPER_BUMP_STEPS, moving := true },
         true)) ∧
    (s.current_position ≤ STEPPER_BUMP_STEPS →
      command_move_stepper_bump_down s =
        ({ s with current_position := STEPPER_BUMP_STEPS, target_position := 0, moving := true },
         true)) := by
  unfold command_move_stepper_bump_down
  rw [h]
  simp only [Bool.true_eq_false, if_false]
  refine ⟨?_, ?_, ?_⟩
  · split_ifs <;> rfl
  · intro hgt
    rw [if_pos hgt]
  · intro hle
    rw [if_neg (by omega)]

/-- Witness for C10 at concrete enabled entities on both sides of
`STEPPER_BUMP_STEPS`. -/
theorem bump_down_always_succeeds_witness :
    command_move_stepper_bump_down sBumpHigh =
      ({ sBumpHigh with
         target_position := (sBumpHigh.current_position - STEPPER_BUMP_STEPS)
         moving := true }, true) ∧
    command_move_stepper_bump_down sBumpLow =
      ({ sBumpLow with
         current_position := STEPPER_BUMP_STEPS
         target_position := 0
         moving := true }, true) :=
  ⟨(bump_down_always_succeeds sBumpHigh rfl).2.1 (by decide),
   (bump_down_always_succeeds sBumpLow rfl).2.2 (by decide)⟩

/-- C3 (bug evaluation): through public operations alone — `stepper_init 0 4`,
`stepper_enable true`, `stepper_set_target_position 0` (the documented "wake"
at the current position), then one pulse cycle of fine ticks — the current
position reaches -1, strictly below `MIN_STEPPER_POSITION`. -/
theorem stepper_position_bound_violation :
    stepper_init 0 4 = some initialEntity ∧
    (stepper_enable initialEntity true).1 = enabledEntity ∧
    stepper_set_target_position enabledEntity 0 = some wokenEntity ∧
    (runMovement wokenEntity.step_period.toNat
      { stepper := wokenEntity, step_timer := 0, step_pin := false
        dir_pin := 0 }).stepper.current_position < MIN_STEPPER_POSITION := by decide

/-- C8 (bug evaluation): `atoi` turns the malformed argument "abc" into 0,
and `command_move_stepper_absolute` then reports success and retargets an
enabled entity at position 5 to position 0 instead of rejecting the command;
`command_set_stepper_period` happens to reject "abc" only because 0 is below
the minimum period. -/
theorem malformed_argument_coerced :
    atoi "abc" = 0 ∧
    command_move_stepper_absolute enabledAt5 "move_stepper_absolute abc" =
      ({ enabledAt5 with target_position := 0, moving := true }, true) ∧
    command_set_stepper_period enabledAt5 "set_stepper_period abc" =
      (enabledAt5, false) := by decide

/-- C4 counterexample: a moving entity with phase counter 0 whose target
equals its current position (period 4): after exactly 4 fine ticks the
position has changed by -1 although the sign of (target - current) is 0,
refuting the claim for this reachable input. -/
theorem pulse_sign_counterexample :
    gWake.stepper.moving = true ∧
    gWake.stepper.target_position - gWake.stepper.current_position = 0 ∧
    (runMovement gWake.stepper.step_period.toNat gWake).stepper.current_position =
      gWake.stepper.current_position - 1 := by decide

/-- One fine tick while not moving refreshes the direction output, forces the
step output low, clears the phase counter, and leaves the entity untouched. -/
theorem movementStep_not_moving (g : GenState) (h : g.stepper.moving = false) :
    movementStep g =
      { g with dir_pin := stepperDirection g.stepper, step_pin := false, step_timer := 0 } := by
  unfold movementStep process_stepper_movement
  dsimp only
  split_ifs <;> first | rfl | simp_all

/-- One fine tick while moving, landing on `step_period / 2`: the step output
goes high, the counter advances, the entity is untouched. -/
theorem movementStep_high (g : GenState) (hm : g.stepper.moving = true)
    (h : g.step_timer + 1 = g.stepper.step_period / 2) :
    movementStep g =
      { g with
        dir_pin := stepperDirection g.stepper
        step_timer := (g.step_timer + 1)
        step_pin := true } := by
  unfold movementStep process_stepper_movement
  dsimp only
  split_ifs <;> first | rfl | (exfalso; omega) | simp_all

/-- One fine tick while moving strictly inside the cycle: only the counter
advances (and the direction output is refreshed). -/
theorem movementStep_mid (g : GenState) (hm : g.stepper.moving = true)
    (h1 : g.step_timer + 1 ≠ g.stepper.step_period / 2)
    (h2 : g.step_timer + 1 < g.stepper.step_period) :
    movementStep g =
      { g with dir_pin := stepperDirection g.stepper, step_timer := (g.step_timer + 1) } := by
  unfold movementStep process_stepper_movement
  dsimp only
  split_ifs <;> first | rfl | (exfalso; omega) | simp_all

/-- One fine tick while moving that completes the cycle (counter reaches the
period): the step output goes low, the counter resets, the position advances
one unit in the computed direction, and `moving` clears exactly when the
target is reached. -/
theorem movementStep_advance_general (g : GenState) (hm : g.stepper.moving = true)
    (hc1 : g.step_timer + 1 ≠ g.stepper.step_period / 2)
    (hc2 : g.step_timer + 1 ≥ g.stepper.step_period) :
    movementStep g =
      { stepper :=
          { g.stepper with
            current_position := nextPosition g.stepper
            moving := decide (nextPosition g.stepper ≠ g.stepper.target_position) }
        step_timer := 0
        step_pin := false
        dir_pin := stepperDirection g.stepper } := by
  unfold movementStep process_stepper_movement nextPosition stepperDirection
    STEPPER_DIRECTION_FORWARD STEPPER_DIRECTION_BACKWARD
  dsimp only
  split_ifs <;> first | rfl | (exfalso; omega) | simp_all

/-- Unfolding lemma: one more tick applies `movementStep` to the result. -/
theorem runMovement_succ (n : Nat) (g : GenState) :
    runMovement (n + 1) g = movementStep (runMovement n g) := rfl

/-- Splitting a tick count. -/
theorem runMovement_add (a b : Nat) (g : GenState) :
    runMovement (a + b) g = runMovement a (runMovement b g) := by
  induction a with
  | zero => rw [Nat.zero_add]; rfl
  | succ a ih => rw [Nat.succ_add, runMovement_succ, runMovement_succ, ih]

/-- Characterization of every tick strictly inside one pulse cycle started at
phase 0: the entity is unchanged, the phase counter equals the tick count,
the step output is high exactly from tick `step_period / 2` on, and the
direction output holds the computed direction from the first tick on. -/
theorem runMovement_intermediate (g : GenState) (hm : g.stepper.moving = true)
    (ht : g.step_timer = 0) (hp : 2 ≤ g.stepper.step_period) :
    ∀ k : Nat, (k : Int) < g.stepper.step_period →
      (runMovement k g).stepper = g.stepper ∧
      (runMovement k g).step_timer = (k : Int) ∧
      (runMovement k g).step_pin =
        (if g.stepper.step_period / 2 ≤ (k : Int) then true else g.step_pin) ∧
      (runMovement k g).dir_pin =
        (if k = 0 then g.dir_pin else stepperDirection g.stepper) := by
  intro k
  induction k with
  | zero =>
    intro _
    refine ⟨rfl, by simpa using ht, ?_, by simp [runMovement]⟩
    rw [if_neg (by push_cast; omega)]
    rfl
  | succ k ih =>
    intro hk1
    have hk : (k : Int) < g.stepper.step_period := by push_cast at hk1 ⊢; omega
    obtain ⟨e1, e2, e3, e4⟩ := ih hk
    have hmov : (runMovement k g).stepper.moving = true := by rw [e1]; exact hm
    by_cases hc : (k : Int) + 1 = g.stepper.step_period / 2
    · have hstep := movementStep_high (runMovement k g) hmov (by rw [e2, e1]; exact hc)
      rw [runMovement_succ, hstep]
      refine ⟨e1, ?_, ?_, ?_⟩
      · show (runMovement k g).step_timer + 1 = ((k + 1 : Nat) : Int)
        rw [e2]; push_cast; ring
      · show true = (if g.stepper.step_period / 2 ≤ ((k + 1 : Nat) : Int) then true else g.step_pin)
        rw [if_pos (by push_cast; omega)]
      · show stepperDirection (runMovement k g).stepper =
          (if (k + 1 : Nat) = 0 then g.dir_pin else stepperDirection g.stepper)
        rw [e1, if_neg (Nat.succ_ne_zero k)]
    · have hstep := movementStep_mid (runMovement k g) hmov
        (by rw [e2, e1]; exact hc) (by rw [e2, e1]; push_cast at hk1; omega)
      rw [runMovement_succ, hstep]
      refine ⟨e1, ?_, ?_, ?_⟩
      · show (runMovement k g).step_timer + 1 = ((k + 1 : Nat) : Int)
        rw [e2]; push_cast; ring
      · show (runMovement k g).step_pin =
          (if g.stepper.step_period / 2 ≤ ((k + 1 : Nat) : Int) then true else g.step_pin)
        rw [e3]
        push_cast
        split_ifs <;> first | rfl | (exfalso; omega)
      · show stepperDirection (runMovement k g).stepper =
          (if (k + 1 : Nat) = 0 then g.dir_pin else stepperDirection g.stepper)
        rw [e1, if_neg (Nat.succ_ne_zero k)]

/-- Running exactly one full pulse cycle (`step_period` fine ticks) from
phase 0 while moving: the position advances one unit in the computed
direction, `moving` clears exactly when the target is reached, the phase
counter is back at 0 and the step output back low. -/
theorem runMovement_cycle (g : GenState) (hm : g.stepper.moving = true)
    (ht : g.step_timer = 0) (hp : 2 ≤ g.stepper.step_period) :
    (runMovement g.stepper.step_period.toNat g).stepper =
      { g.stepper with
        current_position := nextPosition g.stepper
        moving := decide (nextPosition g.stepper ≠ g.stepper.target_position) } ∧
    (runMovement g.stepper.step_period.toNat g).step_timer = 0 ∧
    (runMovement g.stepper.step_period.toNat g).step_pin = false ∧
    (runMovement g.stepper.step_period.toNat g).dir_pin = stepperDirection g.stepper := by
  obtain ⟨j, hj⟩ : ∃ j, g.stepper.step_period.toNat = j + 1 :=
    ⟨g.stepper.step_period.toNat - 1, by omega⟩
  have hjlt : (j : Int) < g.stepper.step_period := by omega
  obtain ⟨e1, e2, e3, e4⟩ := runMovement_intermediate g hm ht hp j hjlt
  have hmov : (runMovement j g).stepper.moving = true := by rw [e1]; exact hm
  have hper : (runMovement j g).stepper.step_period = g.stepper.step_period := by rw [e1]
  have hadv := movementStep_advance_general (runMovement j g) hmov
    (by rw [e2, hper]; omega) (by rw [e2, hper]; omega)
  rw [hj, runMovement_succ, hadv, e1]
  exact ⟨rfl, rfl, rfl, rfl⟩

/-- One tick preserves the motion invariant: the target `b` is fixed, a
moving position stays inside `[lo, hi]` short of `b`, a stopped position
rests exactly at `b`. -/
theorem movementInv_step (lo hi b : Int) (hlo : lo ≤ b) (hhi : b ≤ hi) (g : GenState)
    (hI : movementInv lo hi b g) : movementInv lo hi b (movementStep g) := by
  obtain ⟨hb, hmov, hstop⟩ := hI
  by_cases hm : g.stepper.moving = true
  · obtain ⟨h1, h2, h3⟩ := hmov hm
    by_cases hc1 : g.step_timer + 1 = g.stepper.step_period / 2
    · rw [movementStep_high g hm hc1]
      exact ⟨hb, fun _ => ⟨h1, h2, h3⟩, fun hf => by rw [hm] at hf; exact absurd hf (by decide)⟩
    · by_cases hc2 : g.step_timer + 1 ≥ g.stepper.step_period
      · rw [movementStep_advance_general g hm hc1 hc2]
        refine ⟨hb, ?_, ?_⟩
        · intro hmv
          have hne' : nextPosition g.stepper ≠ g.stepper.target_position :=
            of_decide_eq_true hmv
          show lo ≤ nextPosition g.stepper ∧ nextPosition g.stepper ≤ hi ∧
            nextPosition g.stepper ≠ b
          unfold nextPosition at hne' ⊢
          split_ifs at hne' ⊢ with hdir
          · exact ⟨by omega, by omega, by omega⟩
          · exact ⟨by omega, by omega, by omega⟩
        · intro hf
          have heq : nextPosition g.stepper = g.stepper.target_position :=
            not_not.mp (of_decide_eq_false hf)
          show nextPosition g.stepper = b
          rw [heq, hb]
      · rw [movementStep_mid g hm hc1 (by omega)]
        exact ⟨hb, fun _ => ⟨h1, h2, h3⟩, fun hf => by rw [hm] at hf; exact absurd hf (by decide)⟩
  · have hmf : g.stepper.moving = false := by
      cases hq : g.stepper.moving
      · rfl
      · exact absurd hq hm
    rw [movementStep_not_moving g hmf]
    exact ⟨hb, fun hmv => by rw [hmf] at hmv; exact absurd hmv (by decide), hstop⟩

/-- The motion invariant holds after any number of ticks. -/
theorem movementInv_run (lo hi b : Int) (hlo : lo ≤ b) (hhi : b ≤ hi) (g : GenState)
    (hI : movementInv lo hi b g) (n : Nat) : movementInv lo hi b (runMovement n g) := by
  induction n with
  | zero => exact hI
  | succ n ih => exact movementInv_step lo hi b hlo hhi _ ih

/-- From any cycle-aligned moving state whose position differs from its
target, some finite number of fine ticks reaches the stopped state at the
target (induction on the remaining distance). -/
theorem movement_reaches :
    ∀ (d : Nat) (g : GenState), g.stepper.moving = true → g.step_timer = 0 →
      2 ≤ g.stepper.step_period →
      (g.stepper.target_position - g.stepper.current_position).natAbs = d →
      g.stepper.current_position ≠ g.stepper.target_position →
      ∃ n, (runMovement n g).stepper.moving = false ∧
        (runMovement n g).stepper.current_position =
          (runMovement n g).stepper.target_position := by
  intro d
  induction d with
  | zero =>
    intro g hm ht hp hd hne
    exact absurd (by omega : g.stepper.current_position = g.stepper.target_position) hne
  | succ d ih =>
    intro g hm ht hp hd hne
    obtain ⟨c1, c2, c3, c4⟩ := runMovement_cycle g hm ht hp
    by_cases hreach : nextPosition g.stepper = g.stepper.target_position
    · refine ⟨g.stepper.step_period.toNat, ?_, ?_⟩
      · rw [c1]
        show decide (nextPosition g.stepper ≠ g.stepper.target_position) = false
        simp [hreach]
      · rw [c1]
        show nextPosition g.stepper = g.stepper.target_position
        exact hreach
    · have hm' : (runMovement g.stepper.step_period.toNat g).stepper.moving = true := by
        rw [c1]
        show decide (nextPosition g.stepper ≠ g.stepper.target_position) = true
        simp [hreach]
      have hp' : 2 ≤ (runMovement g.stepper.step_period.toNat g).stepper.step_period := by
        rw [c1]; exact hp
      have hd' : ((runMovement g.stepper.step_period.toNat g).stepper.target_position -
          (runMovement g.stepper.step_period.toNat g).stepper.current_position).natAbs = d := by
        rw [c1]
        show (g.stepper.target_position - nextPosition g.stepper).natAbs = d
        unfold nextPosition
        split_ifs with hdir <;> omega
      have hne' : (runMovement g.stepper.step_period.toNat g).stepper.current_position ≠
          (runMovement g.stepper.step_period.toNat g).stepper.target_position := by
        rw [c1]; exact hreach
      obtain ⟨n1, hn1, hn2⟩ :=
        ih (runMovement g.stepper.step_period.toNat g) hm' c2 hp' hd' hne'
      refine ⟨n1 + g.stepper.step_period.toNat, ?_, ?_⟩
      · rw [runMovement_add]; exact hn1
      · rw [runMovement_add]; exact hn2

/-- C4 (amended): for every entity with `moving = true`, the phase counter at
zero, the step output low, period at least 2, and target distinct from the
current position, running `process_stepper_movement` for exactly
`step_period` fine ticks changes the position by exactly ±1 with the sign of
(target - current), leaves the position untouched at every earlier tick, and
emits one complete pulse of total period exactly `step_period` ticks: low
strictly before tick `step_period / 2`, high from tick `step_period / 2`
through tick `step_period - 1`, low again with the phase reset at tick
`step_period`. -/
theorem pulse_cycle_contract (g : GenState) (hm : g.stepper.moving = true)
    (ht : g.step_timer = 0) (hpin : g.step_pin = false) (hp : 2 ≤ g.stepper.step_period)
    (hne : g.stepper.current_position ≠ g.stepper.target_position) :
    (g.stepper.target_position > g.stepper.current_position →
      (runMovement g.stepper.step_period.toNat g).stepper.current_position =
        g.stepper.current_position + 1) ∧
    (g.stepper.target_position < g.stepper.current_position →
      (runMovement g.stepper.step_period.toNat g).stepper.current_position =
        g.stepper.current_position - 1) ∧
    (∀ k : Nat, (k : Int) < g.stepper.step_period →
      (runMovement k g).stepper.current_position = g.stepper.current_position) ∧
    (∀ k : Nat, (k : Int) < g.stepper.step_period / 2 → (runMovement k g).step_pin = false) ∧
    (∀ k : Nat, g.stepper.step_period / 2 ≤ (k : Int) → (k : Int) < g.stepper.step_period →
      (runMovement k g).step_pin = true) ∧
    (runMovement g.stepper.step_period.toNat g).step_pin = false ∧
    (runMovement g.stepper.step_period.toNat g).step_timer = 0 := by
  obtain ⟨c1, c2, c3, c4⟩ := runMovement_cycle g hm ht hp
  refine ⟨?_, ?_, ?_, ?_, ?_, c3, c2⟩
  · intro hgt
    rw [c1]
    show nextPosition g.stepper = g.stepper.current_position + 1
    unfold nextPosition
    rw [if_pos hgt]
  · intro hlt
    rw [c1]
    show nextPosition g.stepper = g.stepper.current_position - 1
    unfold nextPosition
    rw [if_neg (by omega)]
  · intro k hk
    rw [(runMovement_intermediate g hm ht hp k hk).1]
  · intro k hk
    have hk' : (k : Int) < g.stepper.step_period := by omega
    rw [(runMovement_intermediate g hm ht hp k hk').2.2.1, if_neg (by omega)]
    exact hpin
  · intro k hk1 hk2
    rw [(runMovement_intermediate g hm ht hp k hk2).2.2.1, if_pos hk1]

/-- Witness for C4 at the concrete state `gPulse` (position 5 toward 7,
period 4): one cycle advances to 6, the pin is low after 1 tick, high after
2, and the position is unchanged before the cycle completes. -/
theorem pulse_cycle_contract_witness :
    (runMovement gPulse.stepper.step_period.toNat gPulse).stepper.current_position =
      gPulse.stepper.current_position + 1 ∧
    (runMovement 1 gPulse).step_pin = false ∧
    (runMovement 2 gPulse).step_pin = true ∧
    (runMovement 2 gPulse).stepper.current_position = gPulse.stepper.current_position := by
  obtain ⟨h1, h2, h3, h4, h5, h6, h7⟩ :=
    pulse_cycle_contract gPulse rfl rfl rfl (by decide) (by decide)
  exact ⟨h1 (by decide), h4 1 (by decide), h5 2 (by decide) (by decide), h3 2 (by decide)⟩

/-- C5: from every valid entity state (positions in range, period at least
the enforced minimum, target equal to current when not moving) at generator
phase 0, some finite number of fine ticks reaches `moving = false` with
`current_position = target_position`; and during a unidirectional move
(moving with current ≠ target) the position never leaves the inclusive range
spanned by the start position and the target, at any tick count. -/
theorem movement_terminates_without_overshoot (g : GenState)
    (hv : validState g.stepper) (ht : g.step_timer = 0) :
    (∃ n, (runMovement n g).stepper.moving = false ∧
      (runMovement n g).stepper.current_position =
        (runMovement n g).stepper.target_position) ∧
    (g.stepper.moving = true → g.stepper.current_position ≠ g.stepper.target_position →
      ∀ n, betweenIncl g.stepper.current_position g.stepper.target_position
        (runMovement n g).stepper.current_position) := by
  obtain ⟨hv1, hv2, hv3, hv4, hv5, hv6⟩ := hv
  constructor
  · by_cases hm : g.stepper.moving = true
    · by_cases hne : g.stepper.current_position = g.stepper.target_position
      · obtain ⟨c1, c2, c3, c4⟩ := runMovement_cycle g hm ht hv5
        have hnext : nextPosition g.stepper = g.stepper.current_position - 1 := by
          unfold nextPosition
          rw [if_neg (by omega)]
        have hm' : (runMovement g.stepper.step_period.toNat g).stepper.moving = true := by
          rw [c1]
          show decide (nextPosition g.stepper ≠ g.stepper.target_position) = true
          rw [decide_eq_true_eq]
          omega
        have hp' : 2 ≤ (runMovement g.stepper.step_period.toNat g).stepper.step_period := by
          rw [c1]; exact hv5
        have hd' : ((runMovement g.stepper.step_period.toNat g).stepper.target_position -
            (runMovement g.stepper.step_period.toNat g).stepper.current_position).natAbs
              = 1 := by
          rw [c1]
          show (g.stepper.target_position - nextPosition g.stepper).natAbs = 1
          omega
        have hne' : (runMovement g.stepper.step_period.toNat g).stepper.current_position ≠
            (runMovement g.stepper.step_period.toNat g).stepper.target_position := by
          rw [c1]
          show nextPosition g.stepper ≠ g.stepper.target_position
          omega
        obtain ⟨n1, hn1, hn2⟩ :=
          movement_reaches 1 (runMovement g.stepper.step_period.toNat g) hm' c2 hp' hd' hne'
        refine ⟨n1 + g.stepper.step_period.toNat, ?_, ?_⟩
        · rw [runMovement_add]; exact hn1
        · rw [runMovement_add]; exact hn2
      · exact movement_reaches
          (g.stepper.target_position - g.stepper.current_position).natAbs g hm ht hv5 rfl hne
    · have hmf : g.stepper.moving = false := by
        cases hq : g.stepper.moving
        · rfl
        · exact absurd hq hm
      exact ⟨0, hmf, hv6 hmf⟩
  · intro hm hne n
    have hI : movementInv (min g.stepper.current_position g.stepper.target_position)
        (max g.stepper.current_position g.stepper.target_position)
        g.stepper.target_position g :=
      ⟨rfl, fun _ => ⟨by omega, by omega, hne⟩, fun hf => by rw [hm] at hf; exact absurd hf (by decide)⟩
    have hJ := movementInv_run (min g.stepper.current_position g.stepper.target_position)
      (max g.stepper.current_position g.stepper.target_position)
      g.stepper.target_position (by omega) (by omega) g hI n
    obtain ⟨jb, jmov, jstop⟩ := hJ
    show min g.stepper.current_position g.stepper.target_position ≤
        (runMovement n g).stepper.current_position ∧
      (runMovement n g).stepper.current_position ≤
        max g.stepper.current_position g.stepper.target_position
    by_cases hmn : (runMovement n g).stepper.moving = true
    · obtain ⟨a1, a2, a3⟩ := jmov hmn
      exact ⟨a1, a2⟩
    · have hf : (runMovement n g).stepper.moving = false := by
        cases hq : (runMovement n g).stepper.moving
        · rfl
        · exact absurd hq hmn
      have := jstop hf
      constructor <;> omega

/-- Witness for C5 at the concrete valid state `gTermW` (position 0 toward 2,
period 4): ticking reaches the stopped state at the target, and after 5 ticks
the position is still between start and target. -/
theorem movement_terminates_without_overshoot_witness :
    (∃ n, (runMovement n gTermW).stepper.moving = false ∧
      (runMovement n gTermW).stepper.current_position =
        (runMovement n gTermW).stepper.target_position) ∧
    betweenIncl gTermW.stepper.current_position gTermW.stepper.target_position
      (runMovement 5 gTermW).stepper.current_position := by
  have h := movement_terminates_without_overshoot gTermW
    ⟨by decide, by decide, by decide, by decide, by decide, fun hq => absurd hq (by decide)⟩ rfl
  exact ⟨h.1, h.2 rfl (by decide) 5⟩
